import Mathlib

/-
Shallow embedding of the CppLLM intent-extraction service.

Strings are modelled as `List Char`.  The intent extractor
(`MCPAdapter::extractIntent` in src/mcp_adapter.cpp) lowercases its input,
classifies an intent by substring tests, extracts three optional slots with
ECMAScript regexes, and emits a JSON-like payload with the original text
escaped into a `raw` field.  The regexes involved
(`with\s+([A-Za-z]+)`, `(next\s+[a-zA-Z]+|tomorrow|today|[a-zA-Z]+\s+\d{1,2})`,
`(\d{1,2}(?::\d{2})?\s?(am|pm)?)`) are deterministic: every quantifier is
either followed only by optional parts or bounded by a disjoint character
class, so greedy maximal-munch at the leftmost feasible start position is
exactly the ECMAScript match.  The embedding realises each regex as a
maximal-munch matcher tried at every start position left to right.

The inference engine (src/llm_engine.cpp) is embedded as a function of the
`g_engineReady` flag, and the bind-address resolution of `main`
(src/main.cpp) as a function of the optional CLI argument and environment
variable.
-/

namespace CppLLM

/-- Character class `[a-zA-Z]` of the ECMAScript regexes. -/
def isAlphaChar (c : Char) : Bool :=
  ('a' ≤ c && c ≤ 'z') || ('A' ≤ c && c ≤ 'Z')

/-- Character class `\d` of the ECMAScript regexes. -/
def isDigitChar (c : Char) : Bool :=
  '0' ≤ c && c ≤ '9'

/-- Character class `\s` of the ECMAScript regexes (ASCII whitespace). -/
def isSpaceChar (c : Char) : Bool :=
  c = ' ' || c = '\t' || c = '\n' || c = '\x0b' || c = '\x0c' || c = '\r'

/-- ASCII `std::tolower` in the C locale, as used by `makeLowerCopy`. -/
def lowerChar (c : Char) : Char :=
  if 'A' ≤ c && c ≤ 'Z' then Char.ofNat (c.toNat + 32) else c

/-- Embedding of `makeLowerCopy` (src/mcp_adapter.cpp): lowercase every char. -/
def makeLowerCopy (s : List Char) : List Char := s.map lowerChar

/-- ASCII `std::toupper` in the C locale, as used by `LLMEngine::runInference`. -/
def upperChar (c : Char) : Char :=
  if 'a' ≤ c && c ≤ 'z' then Char.ofNat (c.toNat - 32) else c

/-- Leftmost-match search of `std::regex_search`: try the positional matcher
at every start position, left to right, returning the first success. -/
def scanFirst (matchAt : List Char → Option (List Char)) : List Char → Option (List Char)
  | [] => none
  | c :: t =>
    match matchAt (c :: t) with
    | some r => some r
    | none => scanFirst matchAt t

/-- Regex `with\s+([A-Za-z]+)` anchored at the start of `s`; returns the
captured group (the alphabetic run after the whitespace). -/
def matchPersonAt (s : List Char) : Option (List Char) :=
  if ['w', 'i', 't', 'h'].isPrefixOf s then
    let rest := s.drop 4
    let sp := rest.takeWhile isSpaceChar
    let al := (rest.dropWhile isSpaceChar).takeWhile isAlphaChar
    if sp.isEmpty || al.isEmpty then none else some al
  else none

/-- Embedding of `extractPerson` (src/mcp_adapter.cpp). -/
def extractPerson (s : List Char) : Option (List Char) :=
  scanFirst matchPersonAt s

/-- Regex alternative `next\s+[a-zA-Z]+` anchored at the start of `s`. -/
def matchNextAlt (s : List Char) : Option (List Char) :=
  if ['n', 'e', 'x', 't'].isPrefixOf s then
    let rest := s.drop 4
    let sp := rest.takeWhile isSpaceChar
    let al := (rest.dropWhile isSpaceChar).takeWhile isAlphaChar
    if sp.isEmpty || al.isEmpty then none
    else some (['n', 'e', 'x', 't'] ++ sp ++ al)
  else none

/-- Regex alternative `[a-zA-Z]+\s+\d{1,2}` anchored at the start of `s`. -/
def matchWordNumberAlt (s : List Char) : Option (List Char) :=
  let al := s.takeWhile isAlphaChar
  let r1 := s.dropWhile isAlphaChar
  let sp := r1.takeWhile isSpaceChar
  let ds := ((r1.dropWhile isSpaceChar).takeWhile isDigitChar).take 2
  if al.isEmpty || sp.isEmpty || ds.isEmpty then none
  else some (al ++ sp ++ ds)

/-- Regex `(next\s+[a-zA-Z]+|tomorrow|today|[a-zA-Z]+\s+\d{1,2})` anchored at
the start of `s`, alternatives tried in the listed order. -/
def matchDateAt (s : List Char) : Option (List Char) :=
  match matchNextAlt s with
  | some r => some r
  | none =>
    if ['t', 'o', 'm', 'o', 'r', 'r', 'o', 'w'].isPrefixOf s then
      some ['t', 'o', 'm', 'o', 'r', 'r', 'o', 'w']
    else if ['t', 'o', 'd', 'a', 'y'].isPrefixOf s then
      some ['t', 'o', 'd', 'a', 'y']
    else matchWordNumberAlt s

/-- Embedding of `extractDatePhrase` (src/mcp_adapter.cpp). -/
def extractDatePhrase (s : List Char) : Option (List Char) :=
  scanFirst matchDateAt s

/-- Optional `(?::\d{2})?` part of the time regex: consume `:` plus exactly
two digits when present, greedily. -/
def timeColonSplit (r : List Char) : List Char × List Char :=
  match r with
  | c :: a :: b :: rest =>
    if c = ':' && isDigitChar a && isDigitChar b then ([c, a, b], rest) else ([], c :: a :: b :: rest)
  | other => ([], other)

/-- Optional parts `(?::\d{2})?\s?(am|pm)?` following the leading digits of
the time regex; all greedy, all may match empty. -/
def timeTail (r1 : List Char) : List Char :=
  let cp := timeColonSplit r1
  let r2 := cp.2
  let sp : List Char :=
    match r2 with
    | c :: _ => if isSpaceChar c then [c] else []
    | [] => []
  let r3 := r2.drop sp.length
  let ampm : List Char :=
    if ['a', 'm'].isPrefixOf r3 then ['a', 'm']
    else if ['p', 'm'].isPrefixOf r3 then ['p', 'm']
    else []
  cp.1 ++ sp ++ ampm

/-- Regex `(\d{1,2}(?::\d{2})?\s?(am|pm)?)` anchored at the start of `s`:
one or two leading digits (greedy), then the optional parts. -/
def matchTimeAt (s : List Char) : Option (List Char) :=
  let ds := (s.takeWhile isDigitChar).take 2
  if ds.isEmpty then none
  else some (ds ++ timeTail (s.drop ds.length))

/-- Embedding of `extractTime` (src/mcp_adapter.cpp). -/
def extractTime (s : List Char) : Option (List Char) :=
  scanFirst matchTimeAt s

/-- Boolean model of `lowered.find(needle) != std::string::npos`. -/
def containsSub (needle : List Char) : List Char → Bool
  | [] => needle.isEmpty
  | c :: t => needle.isPrefixOf (c :: t) || containsSub needle t

/-- Intent kinds of the structured payload. -/
inductive Intent where
  | schedule_event
  | financial_summary
  | generic_query
deriving DecidableEq

/-- Intent classification of `MCPAdapter::extractIntent`: ordered keyword
tests against the lowercase copy, first match wins. -/
def classifyIntent (lowered : List Char) : Intent :=
  if containsSub ("schedule".toList) lowered || containsSub ("meeting".toList) lowered then
    Intent.schedule_event
  else if containsSub ("spend".toList) lowered && containsSub ("grocer".toList) lowered then
    Intent.financial_summary
  else Intent.generic_query

/-- Escaping loop of `MCPAdapter::extractIntent`: `"` becomes `\"`, newline
becomes `\n`, every other character is copied unchanged. -/
def escapeRaw : List Char → List Char
  | [] => []
  | c :: rest =>
    if c = '"' then '\\' :: '"' :: escapeRaw rest
    else if c = '\n' then '\\' :: 'n' :: escapeRaw rest
    else c :: escapeRaw rest

/-- Structured extraction result (spec section 3): intent plus optional
slots plus the escaped raw text. -/
structure ExtractionResult where
  intent : Intent
  person : Option (List Char)
  datetime_hint : Option (List Char)
  time_hint : Option (List Char)
  raw : List Char
deriving DecidableEq

/-- Structured view of `MCPAdapter::extractIntent`: the intent and the three
slot extractions over the lowercase copy, plus the escaped original. -/
def extract (input : List Char) : ExtractionResult :=
  { intent := classifyIntent (makeLowerCopy input)
    person := extractPerson (makeLowerCopy input)
    datetime_hint := extractDatePhrase (makeLowerCopy input)
    time_hint := extractTime (makeLowerCopy input)
    raw := escapeRaw input }

/-- Embedding of the full `MCPAdapter::extractIntent` (src/mcp_adapter.cpp):
the serialized payload, emitted chunk by chunk exactly as the C++
`ostringstream` code does. -/
def extractIntent (llmOutput : List Char) : List Char :=
  "\x7b\n".toList
    ++ (if containsSub ("schedule".toList) (makeLowerCopy llmOutput)
           || containsSub ("meeting".toList) (makeLowerCopy llmOutput) then
          "  \"intent\": \"schedule_event\",\n".toList
        else if containsSub ("spend".toList) (makeLowerCopy llmOutput)
           && containsSub ("grocer".toList) (makeLowerCopy llmOutput) then
          "  \"intent\": \"financial_summary\",\n".toList
        else "  \"intent\": \"generic_query\",\n".toList)
    ++ (match extractPerson (makeLowerCopy llmOutput) with
        | some p => "  \"person\": \"".toList ++ p ++ "\",\n".toList
        | none => [])
    ++ (match extractDatePhrase (makeLowerCopy llmOutput) with
        | some d => "  \"datetime_hint\": \"".toList ++ d ++ "\",\n".toList
        | none => [])
    ++ (match extractTime (makeLowerCopy llmOutput) with
        | some t => "  \"time_hint\": \"".toList ++ t ++ "\",\n".toList
        | none => [])
    ++ ("  \"raw\": \"".toList ++ escapeRaw llmOutput ++ "\"\n".toList)
    ++ "\x7d".toList

/-- Name of an intent as it appears in the payload. -/
def intentName : Intent → List Char
  | Intent.schedule_event => "schedule_event".toList
  | Intent.financial_summary => "financial_summary".toList
  | Intent.generic_query => "generic_query".toList

/-- Spec-level serialization (spec section 6): one optional key-value line,
present exactly when the slot is present. -/
def optField (key : List Char) : Option (List Char) → List Char
  | some v => "  \"".toList ++ key ++ "\": \"".toList ++ v ++ "\",\n".toList
  | none => []

/-- Spec-level serialization (spec section 6): keys in the fixed insertion
order intent, person, datetime_hint, time_hint, raw. -/
def specSerialize (r : ExtractionResult) : List Char :=
  "\x7b\n".toList
    ++ ("  \"intent\": \"".toList ++ intentName r.intent ++ "\",\n".toList)
    ++ optField ("person".toList) r.person
    ++ optField ("datetime_hint".toList) r.datetime_hint
    ++ optField ("time_hint".toList) r.time_hint
    ++ ("  \"raw\": \"".toList ++ r.raw ++ "\"\n".toList)
    ++ "\x7d".toList

/-- Single-character JSON escape sequences a compliant parser accepts after a
backslash (the `\u` form never arises from `escapeRaw` output). -/
def unescapeChar (c : Char) : Option Char :=
  if c = '"' then some '"'
  else if c = '\\' then some '\\'
  else if c = '/' then some '/'
  else if c = 'b' then some '\x08'
  else if c = 'f' then some '\x0c'
  else if c = 'n' then some '\n'
  else if c = 'r' then some '\r'
  else if c = 't' then some '\t'
  else none

/-- Decoder of a compliant JSON parser applied to the content of a string
literal: backslash starts an escape sequence, everything else is literal. -/
def jsonUnescape : List Char → Option (List Char)
  | [] => some []
  | c :: rest =>
    if c = '\\' then
      match rest with
      | [] => none
      | d :: rest2 =>
        match unescapeChar d with
        | some e => (jsonUnescape rest2).map (fun l => e :: l)
        | none => none
    else (jsonUnescape rest).map (fun l => c :: l)

/-- Embedding of `LLMEngine::runInference` (src/llm_engine.cpp) as a function
of the `g_engineReady` flag and the input. -/
def runInference (engineReady : Bool) (input : List Char) : List Char :=
  if engineReady = false then "[error] LLM engine not initialized".toList
  else if input.isEmpty then "[info] No input provided.".toList
  else "[stubbed inference] ".toList ++ input.map upperChar

/-- Result is error-marked when it carries the `[error]` tag. -/
def isErrorMarked (s : List Char) : Bool :=
  ("[error]".toList).isPrefixOf s

/-- Embedding of the bind-address resolution in `main` (src/main.cpp): start
from the hardcoded default, overwrite with the environment variable when set,
then overwrite with the first CLI argument when given. -/
def resolveBindAddress (envAddr cliArg : Option (List Char)) : List Char :=
  let addr0 := "0.0.0.0:50061".toList
  let addr1 := match envAddr with | some e => e | none => addr0
  match cliArg with | some a => a | none => addr1

end CppLLM

namespace CppLLM

/-- Claim C1 counterexample: on the input "I spent money at the grocery
store" the code does not classify financial_summary, because "spent" does
not contain the substring "spend" that the code searches for. -/
theorem C1_counterexample :
    (extract ("I spent money at the grocery store".toList)).intent
      ≠ Intent.financial_summary := by
  decide

/-- Claim C1 amended: for the input "I spent money at the grocery store" the
extractor classifies generic_query (the text contains a grocery token but
not the substring "spend"), and the payload has no person, datetime_hint or
time_hint slot. -/
theorem C1_spent_grocery_generic :
    extract ("I spent money at the grocery store".toList)
      = { intent := Intent.generic_query, person := none, datetime_hint := none,
          time_hint := none,
          raw := "I spent money at the grocery store".toList } := by
  decide

/-- Claim C2 counterexample: for the input "Schedule a meeting with Alice
next Friday at 3pm" the person slot is not "Alice": the extractor matches
against the lowercase copy, so the slot value is lowercased. -/
theorem C2_counterexample :
    (extract ("Schedule a meeting with Alice next Friday at 3pm".toList)).person
      ≠ some ("Alice".toList) := by
  decide

/-- Claim C2 amended: for the input "Schedule a meeting with Alice next
Friday at 3pm" the extractor returns intent schedule_event with person slot
"alice" (lowercased by the matcher), datetime_hint slot "next friday" and
time_hint slot "3pm". -/
theorem C2_schedule_meeting_slots :
    extract ("Schedule a meeting with Alice next Friday at 3pm".toList)
      = { intent := Intent.schedule_event, person := some ("alice".toList),
          datetime_hint := some ("next friday".toList),
          time_hint := some ("3pm".toList),
          raw := "Schedule a meeting with Alice next Friday at 3pm".toList } := by
  decide

/-- Helper: escaping then JSON-decoding is the identity on texts without a
backslash. -/
theorem jsonUnescape_escapeRaw (s : List Char) (hb : '\\' ∉ s) :
    jsonUnescape (escapeRaw s) = some s := by
  induction s with
  | nil => rfl
  | cons c t ih =>
    have hbc : c ≠ '\\' := fun hc => hb (hc ▸ List.mem_cons_self c t)
    have hbt : '\\' ∉ t := fun ht => hb (List.mem_cons_of_mem c ht)
    by_cases h1 : c = '"'
    · subst h1
      simp [escapeRaw, jsonUnescape, unescapeChar, ih hbt]
    · by_cases h2 : c = '\n'
      · subst h2
        simp [escapeRaw, jsonUnescape, unescapeChar, ih hbt]
      · simp only [escapeRaw, if_neg h1, if_neg h2]
        rw [jsonUnescape.eq_def]
        simp [hbc, ih hbt]

/-- Claim C3 counterexample: the input consisting of backslash, 'n' and a
double quote contains a double quote, yet escaping it into the raw field and
JSON-decoding yields newline plus quote, not the original text: the code
leaves backslashes unescaped. -/
theorem C3_counterexample :
    ('"' ∈ ['\\', 'n', '"'])
    ∧ jsonUnescape (escapeRaw ['\\', 'n', '"']) ≠ some ['\\', 'n', '"'] := by
  decide

/-- Claim C3 amended: for every input containing a double quote or a newline
but no backslash, embedding the input in the raw field via the code's
escaping and decoding that field with a compliant JSON string parser
reproduces the input exactly. -/
theorem C3_escape_roundtrip (s : List Char)
    (_hq : '"' ∈ s ∨ '\n' ∈ s) (hb : '\\' ∉ s) :
    jsonUnescape (escapeRaw s) = some s :=
  jsonUnescape_escapeRaw s hb

/-- Witness for C3 at a concrete quoted text. -/
theorem C3_escape_roundtrip_witness :
    jsonUnescape (escapeRaw ['"', 'h', 'i', '\n']) = some ['"', 'h', 'i', '\n'] :=
  C3_escape_roundtrip ['"', 'h', 'i', '\n'] (Or.inl (by decide)) (by decide)

/-- Helper: a position starting with a digit always yields a time match,
because everything after the leading digits of the time regex is optional. -/
theorem matchTimeAt_isSome_of_digit (c : Char) (t : List Char)
    (hc : isDigitChar c = true) : (matchTimeAt (c :: t)).isSome = true := by
  simp [matchTimeAt, List.takeWhile_cons, hc, List.take_succ_cons]

/-- Helper: a digit anywhere in the text forces extractTime to find a match. -/
theorem extractTime_isSome_of_any_digit :
    ∀ l : List Char, l.any isDigitChar = true → (extractTime l).isSome = true := by
  intro l
  induction l with
  | nil => intro h; exact absurd h (by decide)
  | cons c t ih =>
    intro h
    by_cases hc : isDigitChar c = true
    · have hm := matchTimeAt_isSome_of_digit c t hc
      unfold extractTime scanFirst
      cases hmm : matchTimeAt (c :: t) with
      | some x => rfl
      | none => rw [hmm] at hm; exact absurd hm (by decide)
    · have hc2 : isDigitChar c = false := by
        cases hcc : isDigitChar c
        · rfl
        · exact absurd hcc hc
      rw [List.any_cons, hc2] at h
      simp only [Bool.false_or] at h
      unfold extractTime scanFirst
      cases hmm : matchTimeAt (c :: t) with
      | some x => rfl
      | none => exact ih h

/-- Claim C8: every input whose lowercase copy contains a decimal digit gets
a time_hint slot: the time pattern accepts any bare one- or two-digit
number, so digits that are not times (such as the day in a month-day date)
still produce a time_hint. -/
theorem C8_time_hint_for_any_digit (s : List Char)
    (h : (makeLowerCopy s).any isDigitChar = true) :
    ((extract s).time_hint).isSome = true :=
  extractTime_isSome_of_any_digit (makeLowerCopy s) h

/-- Witness for C8 at the month-day input "june 15". -/
theorem C8_time_hint_for_any_digit_witness :
    ((extract ("june 15".toList)).time_hint).isSome = true :=
  C8_time_hint_for_any_digit ("june 15".toList) (by decide)

/-- Claim C4: every input whose lowercase copy contains the substring
"schedule" or the substring "meeting" is classified schedule_event,
regardless of any other content. -/
theorem C4_schedule_meeting_priority (s : List Char)
    (h : (containsSub ("schedule".toList) (makeLowerCopy s)
          || containsSub ("meeting".toList) (makeLowerCopy s)) = true) :
    (extract s).intent = Intent.schedule_event := by
  show classifyIntent (makeLowerCopy s) = Intent.schedule_event
  unfold classifyIntent
  rw [if_pos h]

/-- Witness for C4 at an input that also carries both financial cues. -/
theorem C4_schedule_meeting_priority_witness :
    (extract ("MEETING to spend at the grocer".toList)).intent
      = Intent.schedule_event :=
  C4_schedule_meeting_priority ("MEETING to spend at the grocer".toList) (by decide)

/-- Claim C6: runInference returns an error-marked result exactly when the
engine is not ready; when ready and the prompt is empty it returns the
informational no-op response; when ready and the prompt is non-empty it
returns the stub backend output derived from the prompt. -/
theorem C6_runInference_contract (r : Bool) (i : List Char) :
    (isErrorMarked (runInference r i) = true ↔ r = false)
    ∧ (r = true → i = [] → runInference r i = "[info] No input provided.".toList)
    ∧ (r = true → i ≠ [] →
        runInference r i = "[stubbed inference] ".toList ++ i.map upperChar) := by
  cases r with
  | false =>
    refine ⟨by simp [runInference]; decide, ?_, ?_⟩ <;> intro h <;> exact absurd h (by decide)
  | true =>
    have h1 : isErrorMarked (runInference true i) = false := by
      cases i with
      | nil => decide
      | cons c t => rfl
    refine ⟨by simp [h1], ?_, ?_⟩
    · intro _ hi
      subst hi
      rfl
    · intro _ hi
      cases i with
      | nil => exact absurd rfl hi
      | cons c t => rfl

/-- Witness for C6: a ready engine on a concrete non-empty prompt returns
the uppercased stub output. -/
theorem C6_runInference_contract_witness :
    runInference true ("hi".toList)
      = "[stubbed inference] ".toList ++ ("hi".toList).map upperChar :=
  (C6_runInference_contract true ("hi".toList)).2.2 rfl (by decide)

/-- Claim C7: the bind address is the CLI argument when given, else the
environment override when set, else the hardcoded default. -/
theorem C7_bind_address_priority (e c : List Char) :
    resolveBindAddress (some e) (some c) = c
    ∧ resolveBindAddress none (some c) = c
    ∧ resolveBindAddress (some e) none = e
    ∧ resolveBindAddress none none = "0.0.0.0:50061".toList :=
  ⟨rfl, rfl, rfl, rfl⟩

/-- Helper: a successful person match is a non-empty alphabetic run. -/
theorem matchPersonAt_ne_nil (u r : List Char) (h : matchPersonAt u = some r) :
    r ≠ [] := by
  unfold matchPersonAt at h
  dsimp only at h
  split at h
  · split at h
    · cases h
    · rename_i hcond
      injection h with h2
      subst h2
      intro hr
      exact hcond (by simp [hr])
  · cases h

/-- Helper: a successful `next <word>` match is non-empty. -/
theorem matchNextAlt_ne_nil (u r : List Char) (h : matchNextAlt u = some r) :
    r ≠ [] := by
  unfold matchNextAlt at h
  dsimp only at h
  split at h
  · split at h
    · cases h
    · injection h with h2
      subst h2
      simp
  · cases h

/-- Helper: a successful `<word> <number>` match is non-empty. -/
theorem matchWordNumberAlt_ne_nil (u r : List Char) (h : matchWordNumberAlt u = some r) :
    r ≠ [] := by
  unfold matchWordNumberAlt at h
  dsimp only at h
  split at h
  · cases h
  · rename_i hcond
    injection h with h2
    subst h2
    intro hr
    rw [List.append_eq_nil] at hr
    rw [List.append_eq_nil] at hr
    exact hcond (by simp [hr.1.1])

/-- Helper: a successful date match is non-empty. -/
theorem matchDateAt_ne_nil (u r : List Char) (h : matchDateAt u = some r) :
    r ≠ [] := by
  unfold matchDateAt at h
  cases hm : matchNextAlt u with
  | some x =>
    rw [hm] at h
    have hx : x = r := by simpa using h
    exact hx ▸ matchNextAlt_ne_nil u x hm
  | none =>
    rw [hm] at h
    simp only at h
    split at h
    · injection h with h2
      subst h2
      decide
    · split at h
      · injection h with h2
        subst h2
        decide
      · exact matchWordNumberAlt_ne_nil u r h

/-- Helper: a successful time match is non-empty. -/
theorem matchTimeAt_ne_nil (u r : List Char) (h : matchTimeAt u = some r) :
    r ≠ [] := by
  unfold matchTimeAt at h
  dsimp only at h
  split at h
  · cases h
  · rename_i hcond
    injection h with h2
    subst h2
    intro hr
    rw [List.append_eq_nil] at hr
    exact hcond (by simp [hr.1])

/-- Helper: leftmost scan only returns values a positional matcher returned. -/
theorem scanFirst_ne_nil {f : List Char → Option (List Char)}
    (hf : ∀ u r, f u = some r → r ≠ []) :
    ∀ l r, scanFirst f l = some r → r ≠ [] := by
  intro l
  induction l with
  | nil => intro r h; exact absurd h (by simp [scanFirst])
  | cons c t ih =>
    intro r h
    unfold scanFirst at h
    cases hm : f (c :: t) with
    | some x =>
      rw [hm] at h
      have hx : x = r := by simpa using h
      exact hx ▸ hf _ _ hm
    | none =>
      rw [hm] at h
      exact ih r h

/-- Helper: an optional slot whose every value is a non-empty list passes
the all-non-empty boolean test. -/
theorem option_all_ne_nil {o : Option (List Char)}
    (h : ∀ r, o = some r → r ≠ []) : o.all (fun v => !v.isEmpty) = true := by
  cases o with
  | none => rfl
  | some v =>
    cases v with
    | nil => exact absurd rfl (h [] rfl)
    | cons a t => rfl

/-- Helper: collapsed person key line of the serialization. -/
theorem person_chunk :
    "  \"".toList ++ ("person".toList) ++ "\": \"".toList
      = "  \"person\": \"".toList := by
  decide

/-- Helper: collapsed datetime_hint key line of the serialization. -/
theorem datetime_chunk :
    "  \"".toList ++ ("datetime_hint".toList) ++ "\": \"".toList
      = "  \"datetime_hint\": \"".toList := by
  decide

/-- Helper: collapsed time_hint key line of the serialization. -/
theorem time_chunk :
    "  \"".toList ++ ("time_hint".toList) ++ "\": \"".toList
      = "  \"time_hint\": \"".toList := by
  decide

/-- Helper: collapsed intent line for schedule_event. -/
theorem intent_schedule_chunk :
    "  \"intent\": \"".toList ++ ("schedule_event".toList) ++ "\",\n".toList
      = "  \"intent\": \"schedule_event\",\n".toList := by
  decide

/-- Helper: collapsed intent line for financial_summary. -/
theorem intent_financial_chunk :
    "  \"intent\": \"".toList ++ ("financial_summary".toList) ++ "\",\n".toList
      = "  \"intent\": \"financial_summary\",\n".toList := by
  decide

/-- Helper: collapsed intent line for generic_query. -/
theorem intent_generic_chunk :
    "  \"intent\": \"".toList ++ ("generic_query".toList) ++ "\",\n".toList
      = "  \"intent\": \"generic_query\",\n".toList := by
  decide

/-- Helper: the payload emitted by extractIntent is exactly the spec-level
serialization of the structured extraction result. -/
theorem extractIntent_eq_serialize (s : List Char) :
    extractIntent s = specSerialize (extract s) := by
  unfold extractIntent specSerialize extract
  dsimp only
  cases hb1 : (containsSub ("schedule".toList) (makeLowerCopy s)
      || containsSub ("meeting".toList) (makeLowerCopy s)) <;>
  cases hb2 : (containsSub ("spend".toList) (makeLowerCopy s)
      && containsSub ("grocer".toList) (makeLowerCopy s)) <;>
  cases extractPerson (makeLowerCopy s) <;>
  cases extractDatePhrase (makeLowerCopy s) <;>
  cases extractTime (makeLowerCopy s) <;>
  simp only [classifyIntent, hb1, hb2, Bool.false_eq_true, eq_self_iff_true,
    if_true, if_false, intentName, optField, person_chunk, datetime_chunk,
    time_chunk, intent_schedule_chunk, intent_financial_chunk,
    intent_generic_chunk]

/-- Claim C5: the emitted payload is the spec serialization of the
structured result: it always carries the intent key with one of the three
intent kinds and the raw key, each optional key is present exactly when its
pattern matched with a non-empty value, and keys appear in the fixed order
intent, person, datetime_hint, time_hint, raw. -/
theorem C5_payload_shape (s : List Char) :
    extractIntent s = specSerialize (extract s)
    ∧ ((extract s).intent = Intent.schedule_event
       ∨ (extract s).intent = Intent.financial_summary
       ∨ (extract s).intent = Intent.generic_query)
    ∧ (extract s).person = extractPerson (makeLowerCopy s)
    ∧ (extract s).datetime_hint = extractDatePhrase (makeLowerCopy s)
    ∧ (extract s).time_hint = extractTime (makeLowerCopy s)
    ∧ (extract s).person.all (fun v => !v.isEmpty) = true
    ∧ (extract s).datetime_hint.all (fun v => !v.isEmpty) = true
    ∧ (extract s).time_hint.all (fun v => !v.isEmpty) = true := by
  refine ⟨extractIntent_eq_serialize s, ?_, rfl, rfl, rfl, ?_, ?_, ?_⟩
  · cases h : (extract s).intent
    · exact Or.inl rfl
    · exact Or.inr (Or.inl rfl)
    · exact Or.inr (Or.inr rfl)
  · exact option_all_ne_nil (scanFirst_ne_nil matchPersonAt_ne_nil _)
  · exact option_all_ne_nil (scanFirst_ne_nil matchDateAt_ne_nil _)
  · exact option_all_ne_nil (scanFirst_ne_nil matchTimeAt_ne_nil _)

/-- Claim C9: extraction is deterministic: equal input texts yield identical
structured results and identical serialized payloads. -/
theorem C9_extract_deterministic (s1 s2 : List Char) (h : s1 = s2) :
    extract s1 = extract s2 ∧ extractIntent s1 = extractIntent s2 := by
  subst h
  exact ⟨rfl, rfl⟩

/-- Witness for C9 at a concrete text. -/
theorem C9_extract_deterministic_witness :
    extract ("hello".toList) = extract ("hello".toList)
    ∧ extractIntent ("hello".toList) = extractIntent ("hello".toList) :=
  C9_extract_deterministic ("hello".toList) ("hello".toList) rfl

end CppLLM
